import Mathlib

/-!
Shallow embedding of the nanotube hot path: the host delivery state machine
from pkg/target/host.go and the ingest listeners (UDP datagram splitting,
TCP line scanning, non-blocking pushes to the main queue).

External I/O (dial outcomes, write/flush outcomes, the current clock) is
passed in explicitly as oracle arguments; Go uint32 arithmetic is modelled
on Nat with reduction mod 2^32 where the source can overflow; instants are
Int nanoseconds, matching Go time.Time / time.Duration resolution.
-/

namespace Nanotube

/-- Go uint32 modulus, for arithmetic the source performs on uint32. -/
def U32 : Nat := 4294967296

/-- Modelled from the spec: package pkg/rec is not under src/. A record is
`(path, value, timestamp)` plus the ingest instant `received` used for the
processing-latency histogram. -/
structure Rec where
  path : String
  value : String
  timestamp : Nat
  received : Int
deriving Repr, DecidableEq

/-- Modelled from the spec: pkg/rec is not under src/; the serialized form
equals `path SP value SP timestamp LF`. -/
def Rec.serialize (r : Rec) : String :=
  r.path ++ " " ++ r.value ++ " " ++ toString r.timestamp ++ "\n"

/-- The downstream TCP socket, abstracted to the bytes successfully written
to it and whether Close has been called on it. -/
structure NetConn where
  sent : String := ""
  closed : Bool := false
deriving Repr, DecidableEq

/-- The bufio.Writer attached to a socket, abstracted to its buffered bytes. -/
structure Writer where
  buf : String := ""
deriving Repr, DecidableEq

/-- Connection (host.go): socket, last-use instant and buffered writer.
The sync.Mutex has no observable content in a sequential embedding. -/
structure Connection where
  conn : Option NetConn := none
  lastConnUse : Int := 0
  w : Option Writer := none
deriving Repr, DecidableEq

/-- Connection.New (host.go): install the freshly dialed socket, stamp the
last-use instant, and create a fresh (hence empty) buffered writer. -/
def Connection.new (now : Int) : Connection :=
  { conn := some {}, lastConnUse := now, w := some {} }

/-- Modelled from the spec: package pkg/conf is not under src/. Fields mirror
the configuration options the spec lists, including both
`max_host_reconnect_period_ms` and `host_reconnect_period_delta_ms`. -/
structure MainCfg where
  targetPort : Nat
  hostQueueSize : Nat
  mainQueueSize : Nat
  sendTimeoutSec : Nat
  outConnTimeoutSec : Nat
  keepAliveSec : Nat
  maxHostReconnectPeriodMs : Nat
  hostReconnectPeriodDeltaMs : Nat
  connectionLossThresholdMs : Nat
  tcpOutBufSize : Nat
  tcpOutBufFlushPeriodSec : Nat
  tcpOutConnectionRefreshPeriodSec : Nat
deriving Repr, DecidableEq

/-- Modelled from the spec: conf.Host is not under src/; host.go reads its
`Name` and `Port` fields. -/
structure HostCfg where
  name : String
  port : Nat
deriving Repr, DecidableEq

/-- Host (host.go): target endpoint with bounded queue, liveness flag,
connection cell, config copies, and the prometheus counters modelled as
Nat. `socketCloses` counts the Conn.Close calls the source makes, and
`processingObserved` records the histogram observations (as nanosecond
latencies; the source divides by 1e9 to seconds when observing). -/
structure Host where
  name : String
  port : Nat
  chCap : Nat
  ch : List Rec := []
  available : Bool
  conn : Connection := {}
  sendTimeoutSec : Nat
  connTimeoutSec : Nat
  keepAliveSec : Nat
  maxReconnectPeriodMs : Nat
  reconnectPeriodDeltaMs : Nat
  connectionLossThresholdMs : Nat
  tcpOutBufFlushPeriodSec : Nat
  tcpOutConnectionRefreshPeriodSec : Nat
  outRecs : Nat := 0
  outRecsTotal : Nat := 0
  throttled : Nat := 0
  throttledTotal : Nat := 0
  stateChanges : Nat := 0
  stateChangesTotal : Nat := 0
  oldConnectionRefresh : Nat := 0
  oldConnectionRefreshTotal : Nat := 0
  processingObserved : List Int := []
  socketCloses : Nat := 0
  bufSize : Nat
deriving Repr, DecidableEq

/-- NewHost (host.go). The port defaults to the main config target port
unless the host config overrides it with a non-zero port. The source line
`ReconnectPeriodDeltaMs: mainCfg.MaxHostReconnectPeriodMs` is kept exactly
as written there. `Available.Store(true)` gives the initial liveness flag. -/
def NewHost (mainCfg : MainCfg) (hostCfg : HostCfg) : Host :=
  let targetPort := if hostCfg.port ≠ 0 then hostCfg.port else mainCfg.targetPort
  { name := hostCfg.name
    port := targetPort
    chCap := mainCfg.hostQueueSize
    available := true
    sendTimeoutSec := mainCfg.sendTimeoutSec
    connTimeoutSec := mainCfg.outConnTimeoutSec
    keepAliveSec := mainCfg.keepAliveSec
    maxReconnectPeriodMs := mainCfg.maxHostReconnectPeriodMs
    reconnectPeriodDeltaMs := mainCfg.maxHostReconnectPeriodMs
    connectionLossThresholdMs := mainCfg.connectionLossThresholdMs
    tcpOutBufFlushPeriodSec := mainCfg.tcpOutBufFlushPeriodSec
    tcpOutConnectionRefreshPeriodSec := mainCfg.tcpOutConnectionRefreshPeriodSec
    bufSize := mainCfg.tcpOutBufSize }

/-- Host.Push (host.go): non-blocking send on the bounded host channel; when
the channel is full, drop the record and bump both throttle counters. -/
def Host.push (h : Host) (r : Rec) : Host :=
  if h.ch.length < h.chCap then
    { h with ch := h.ch ++ [r] }
  else
    { h with throttled := h.throttled + 1, throttledTotal := h.throttledTotal + 1 }

/-- Available.CAS(true, false) of the go.uber.org/atomic Bool: swap to false
and report true exactly when the flag was true. -/
def Host.casAvailTrueFalse (h : Host) : Host × Bool :=
  if h.available then ({ h with available := false }, true) else (h, false)

/-- Connect (host.go): one dial attempt, outcome given by the oracle
`dialOk`. On failure set the socket to nil and, on the first attempt only,
CAS the liveness flag true→false, bumping the state-change counters exactly
when the CAS succeeds. On success install the fresh connection and blindly
store `available := true`. -/
def Host.connect (h : Host) (dialOk : Bool) (now : Int) (attemptCount : Nat) :
    Host :=
  if dialOk then
    { h with conn := Connection.new now, available := true }
  else
    let h1 := { h with conn := { h.conn with conn := none } }
    if attemptCount = 1 then
      let p := h1.casAvailTrueFalse
      if p.2 then
        { p.1 with stateChanges := p.1.stateChanges + 1,
                   stateChangesTotal := p.1.stateChangesTotal + 1 }
      else p.1
    else h1

/-- checkUpdateHostStatus (host.go): the load-balancer liveness probe. On a
successful dial blindly store `available := true` (the probe socket is
closed again at once); on failure CAS true→false and bump the state-change
counters exactly when the CAS succeeds. -/
def Host.checkUpdateHostStatus (h : Host) (dialOk : Bool) : Host :=
  if dialOk then
    { h with available := true }
  else
    let p := h.casAvailTrueFalse
    if p.2 then
      { p.1 with stateChanges := p.1.stateChanges + 1,
                 stateChangesTotal := p.1.stateChangesTotal + 1 }
    else p.1

/-- One update of reconnectWait in ensureConnection (host.go): the two
sequential ifs of the source, with the uint32 overflow of `wait*2 + delta`
made explicit. -/
def reconnectWaitStep (maxMs delta w : Nat) : Nat :=
  let w1 := if w < maxMs then (w * 2 + delta) % U32 else w
  if maxMs ≤ w1 then maxMs else w1

/-- The sequence of sleeps ensureConnection performs: the wait before dial
attempt n+1, starting from 0 before the first attempt. -/
def reconnectWaitSeq (maxMs delta : Nat) : Nat → Nat
  | 0 => 0
  | n + 1 => reconnectWaitStep maxMs delta (reconnectWaitSeq maxMs delta n)

/-- Loop body of ensureConnection (host.go), driven by the oracle list of
dial outcomes. Returns the resulting host together with the list of sleeps
performed (the source sleeps `reconnectWait` milliseconds at the top of each
iteration). When the oracle is exhausted while the socket is still nil the
state reached so far is returned; the source itself would keep looping. -/
def Host.ensureConnectionAux :
    List Bool → Int → Nat → Nat → List Nat → Host → Host × List Nat
  | [], _, _, _, sleeps, h => (h, sleeps)
  | d :: rest, now, wait, attempt, sleeps, h =>
    if h.conn.conn = none then
      let w1 := reconnectWaitStep h.maxReconnectPeriodMs h.reconnectPeriodDeltaMs wait
      Host.ensureConnectionAux rest now w1 (attempt + 1) (sleeps ++ [wait])
        (h.connect d now attempt)
    else (h, sleeps)

/-- ensureConnection (host.go): loop while the socket is nil, sleeping the
current wait, updating it, and dialing. -/
def Host.ensureConnection (h : Host) (dials : List Bool) (now : Int) :
    Host × List Nat :=
  Host.ensureConnectionAux dials now 0 1 [] h

/-- keepConnectionFresh (host.go). A zero refresh period disables the
refresh. Otherwise, when a socket exists and `time.Since(LastConnUse)`
(nanoseconds) exceeds `time.Duration(TCPOutConnectionRefreshPeriodSec)`
(which the source constructs as that many NANOSECONDS, not seconds), bump
the refresh counters, close the socket and call ensureConnection. The
closed socket is still non-nil, so the ensureConnection loop guard fails
immediately and no redial happens. -/
def Host.keepConnectionFresh (h : Host) (dials : List Bool) (now : Int) :
    Host :=
  if h.tcpOutConnectionRefreshPeriodSec ≠ 0 then
    match h.conn.conn with
    | some c =>
      if (h.tcpOutConnectionRefreshPeriodSec : Int) < now - h.conn.lastConnUse then
        let h1 := { h with
          oldConnectionRefresh := h.oldConnectionRefresh + 1,
          oldConnectionRefreshTotal := h.oldConnectionRefreshTotal + 1,
          socketCloses := h.socketCloses + 1,
          conn := { h.conn with conn := some { c with closed := true } } }
        (h1.ensureConnection dials now).1
      else h
    | none => h
  else h

/-- tryToFlushIfNecessary (host.go). When the buffered writer exists and
holds bytes: if the socket is nil run ensureConnection (which, on a
successful dial, REPLACES the writer with a fresh empty one), else run
keepConnectionFresh; then call W.Flush(). A bufio Flush with an empty
buffer performs no write and returns nil; a non-empty flush succeeds or
fails per the `flushOk` oracle (it also fails when no socket is present).
On flush error both the socket and the writer are set to nil. Finally the
last-use instant is stamped. -/
def Host.tryToFlushIfNecessary (h : Host) (dials : List Bool) (flushOk : Bool)
    (now : Int) : Host :=
  match h.conn.w with
  | some wr =>
    if wr.buf ≠ "" then
      let h1 := if h.conn.conn = none then (h.ensureConnection dials now).1
                else h.keepConnectionFresh dials now
      let h2 :=
        match h1.conn.w, h1.conn.conn with
        | some wr1, some c =>
          if wr1.buf = "" then h1
          else if flushOk then
            { h1 with conn := { h1.conn with
                conn := some { c with sent := c.sent ++ wr1.buf },
                w := some { wr1 with buf := "" } } }
          else
            { h1 with conn := { h1.conn with conn := none, w := none } }
        | some wr1, none =>
          if wr1.buf = "" then h1
          else { h1 with conn := { h1.conn with conn := none, w := none } }
        | none, _ => h1
      { h2 with conn := { h2.conn with lastConnUse := now } }
    else h
  | none => h

/-- Oracle for one iteration of the tryToSend retry loop: the dial outcomes
available to ensureConnection this iteration, the current instant, and
whether the buffered write of the record returns nil. -/
structure SendAttempt where
  dials : List Bool
  now : Int
  writeOk : Bool
deriving Repr, DecidableEq

/-- One iteration of the tryToSend loop body (host.go): ensureConnection,
keepConnectionFresh, set the write deadline (no observable effect), then
`W.Write(r.Serialize())`. On nil error bump out_recs, observe the latency
`now - received` into the histogram, stamp last-use and report success; on
error close the socket (counted by `socketCloses`), set it to nil and
report failure so the loop retries the same record. -/
def Host.sendAttemptStep (h : Host) (r : Rec) (a : SendAttempt) : Host × Bool :=
  let h1 := (h.ensureConnection a.dials a.now).1
  let h2 := h1.keepConnectionFresh a.dials a.now
  if a.writeOk then
    let h3 :=
      match h2.conn.w with
      | some wr => { h2 with conn := { h2.conn with
                       w := some { wr with buf := wr.buf ++ r.serialize } } }
      | none => h2
    ({ h3 with outRecs := h3.outRecs + 1,
               outRecsTotal := h3.outRecsTotal + 1,
               processingObserved := h3.processingObserved ++ [a.now - r.received],
               conn := { h3.conn with lastConnUse := a.now } }, true)
  else
    match h2.conn.conn with
    | some _ =>
      ({ h2 with socketCloses := h2.socketCloses + 1,
                 conn := { h2.conn with
                   conn := (none : Option NetConn) } }, false)
    | none => ({ h2 with conn := { h2.conn with conn := none } }, false)

/-- tryToSend (host.go): retry the same record until a write succeeds,
driven by the per-iteration oracle list. Returns none when the oracle list
runs out before a success; the source itself would keep looping. -/
def Host.tryToSendLoop (h : Host) (r : Rec) : List SendAttempt → Option Host
  | [] => none
  | a :: rest =>
    let p := h.sendAttemptStep r a
    if p.2 then some p.1 else p.1.tryToSendLoop r rest

/-- Counters of the listening path (pkg metrics): records accepted into the
main queue and records throttled away from it. -/
structure Ms where
  inRecs : Nat := 0
  throttledRecs : Nat := 0
deriving Repr, DecidableEq

/-- The main queue: a bounded channel of raw lines. -/
structure MainQueue where
  cap : Nat
  items : List (List Char) := []
deriving Repr, DecidableEq

/-- sendToMainQ (listen.go): non-blocking channel send with a default
branch. Room in the bounded channel: enqueue and bump in_recs; otherwise
drop the record and bump throttled_recs. -/
def sendToMainQ (r : List Char) (q : MainQueue) (ms : Ms) : MainQueue × Ms :=
  if q.items.length < q.cap then
    ({ q with items := q.items ++ [r] }, { ms with inRecs := ms.inRecs + 1 })
  else
    (q, { ms with throttledRecs := ms.throttledRecs + 1 })

/-- bytes.Split of the datagram on the LF byte: the fragments between LFs,
one more fragment than there are LFs, empty fragments included. -/
def splitLF : List Char → List (List Char)
  | [] => [[]]
  | c :: rest =>
    let r := splitLF rest
    if c = '\n' then [] :: r
    else
      match r with
      | [] => [[c]]
      | x :: xs => (c :: x) :: xs

/-- The loop body of listenUDP (listen.go) for one datagram: split on LF
and hand fragments 0 .. len-2 (all but the last) to sendToMainQ, folding
the queue and counter state through. Returns the lines pushed together
with the final queue and counters. -/
def listenUDPDatagram (d : List Char) (q : MainQueue) (ms : Ms) :
    List (List Char) × MainQueue × Ms :=
  let lines := splitLF d
  let pushed := lines.take (lines.length - 1)
  (pushed, pushed.foldl (fun qm l => sendToMainQ l qm.1 qm.2) (q, ms))

/-- Concatenation of lines with each line LF-terminated: the exact byte
content a sequence of complete lines stands for. -/
def joinLinesLF (ls : List (List Char)) : List Char :=
  ls.foldr (fun l acc => l ++ '\n' :: acc) []

/-- Concatenation of fragments with LF in between: the inverse of splitLF. -/
def interLF : List (List Char) → List Char
  | [] => []
  | [l] => l
  | l :: ls => l ++ '\n' :: interLF ls

/-- bufio.MaxScanTokenSize: the default token-size limit of the scanner. -/
def maxScanTokenSize : Nat := 65536

/-- The token stream a bufio.Scanner with ScanLines yields: successive lines
while each fits the buffer, strictly below the token-size limit, because the
buffer capped at the limit must also hold the terminating newline before
ScanLines can cut the token; the first line of limit bytes or more makes
Scan return false (ErrTooLong) and nothing after it is ever yielded. -/
def scanTokens (limit : Nat) : List (List Char) → List (List Char)
  | [] => []
  | l :: ls => if l.length < limit then l :: scanTokens limit ls else []

/-- scanForRecordsTCP (listen.go): forward every line the scanner yields to
sendToMainQ (the read-deadline refresh has no observable effect here).
Returns the forwarded lines together with the final queue and counters. -/
def scanForRecordsTCP (connLines : List (List Char)) (q : MainQueue) (ms : Ms) :
    List (List Char) × MainQueue × Ms :=
  let fwd := scanTokens maxScanTokenSize connLines
  (fwd, fwd.foldl (fun qm l => sendToMainQ l qm.1 qm.2) (q, ms))

/-! ## Sample configuration values used by the closed theorems -/

/-- Sample main configuration: note the max reconnect period (30000 ms) and
the reconnect delta (10 ms) differ, and the refresh period is 5 seconds. -/
def cfgA : MainCfg :=
  { targetPort := 2003
    hostQueueSize := 2
    mainQueueSize := 4
    sendTimeoutSec := 5
    outConnTimeoutSec := 5
    keepAliveSec := 1
    maxHostReconnectPeriodMs := 30000
    hostReconnectPeriodDeltaMs := 10
    connectionLossThresholdMs := 3000
    tcpOutBufSize := 4096
    tcpOutBufFlushPeriodSec := 2
    tcpOutConnectionRefreshPeriodSec := 5 }

/-- Sample host configuration with no port override. -/
def hostCfgA : HostCfg := { name := "h1", port := 0 }

/-- Sample freshly constructed host. -/
def hostA : Host := NewHost cfgA hostCfgA

/-- Sample record. -/
def recA : Rec := { path := "a.b.c", value := "10", timestamp := 1700000000,
                    received := 2 }

/-! ## Theorems -/

/-- C10: a host returned by NewHost has `available = true` while no dial has
happened yet (its socket is nil), and the first failed dial attempt flips
the flag to false. -/
theorem c10_newHost_available (mainCfg : MainCfg) (hostCfg : HostCfg) (t : Int) :
    (NewHost mainCfg hostCfg).available = true ∧
    (NewHost mainCfg hostCfg).conn.conn = none ∧
    ((NewHost mainCfg hostCfg).connect false t 1).available = false := by
  refine ⟨rfl, rfl, ?_⟩
  simp [NewHost, Host.connect, Host.casAvailTrueFalse]

/-- C8: Host.Push is non-blocking: with room in the bounded queue the record
is appended unchanged and nothing else (no counter) changes; with the queue
full the record is dropped and exactly the per-host and total throttle
counters increment, each by one. -/
theorem c8_push_nonblocking (h : Host) (r : Rec) :
    (h.ch.length < h.chCap → h.push r = { h with ch := h.ch ++ [r] }) ∧
    (¬ h.ch.length < h.chCap →
      h.push r = { h with throttled := h.throttled + 1,
                          throttledTotal := h.throttledTotal + 1 }) := by
  constructor <;> intro hlt <;> simp [Host.push, hlt]

/-- C8 witness: pushing onto the sample host (queue empty, capacity 2)
appends the record. -/
theorem c8_push_nonblocking_witness :
    hostA.ch.length < hostA.chCap ∧
    hostA.push recA = { hostA with ch := hostA.ch ++ [recA] } :=
  ⟨by decide, (c8_push_nonblocking hostA recA).1 (by decide)⟩

/-- C7: sendToMainQ is non-blocking: with room the line is enqueued and
in_recs increments by exactly one; with the queue full the line is dropped
and throttled_recs increments by exactly one; the result is always exactly
one of these two states. -/
theorem c7_sendToMainQ_nonblocking (r : List Char) (q : MainQueue) (ms : Ms) :
    (q.items.length < q.cap →
      sendToMainQ r q ms =
        ({ q with items := q.items ++ [r] }, { ms with inRecs := ms.inRecs + 1 })) ∧
    (¬ q.items.length < q.cap →
      sendToMainQ r q ms = (q, { ms with throttledRecs := ms.throttledRecs + 1 })) := by
  constructor <;> intro hlt <;> simp [sendToMainQ, hlt]

/-- C7 witness: one push into an empty two-slot queue and one push into a
zero-capacity queue, taking each branch of the theorem. -/
theorem c7_sendToMainQ_nonblocking_witness :
    (([] : List (List Char)).length < 2 ∧
      sendToMainQ ['a'] ⟨2, []⟩ ⟨0, 0⟩ = (⟨2, [['a']]⟩, ⟨1, 0⟩)) ∧
    (¬ ([] : List (List Char)).length < 0 ∧
      sendToMainQ ['a'] ⟨0, []⟩ ⟨0, 0⟩ = (⟨0, []⟩, ⟨0, 1⟩)) :=
  ⟨⟨by decide, (c7_sendToMainQ_nonblocking ['a'] ⟨2, []⟩ ⟨0, 0⟩).1 (by decide)⟩,
   ⟨by decide, (c7_sendToMainQ_nonblocking ['a'] ⟨0, []⟩ ⟨0, 0⟩).2 (by decide)⟩⟩

/-- C2: the code slip behind the claim. NewHost copies the MAX reconnect
period into the delta field (host.go line 94), so with a configured max of
30000 ms and delta of 10 ms the delta field of the host is 30000 and the sleeps of one
ensureConnection run over three failed dials are [0, 30000, 30000] instead
of the [0, 10, 30] that the recurrence of the claim with delta 10 yields. -/
theorem c2_delta_misassigned :
    hostA.reconnectPeriodDeltaMs = 30000 ∧
    cfgA.hostReconnectPeriodDeltaMs = 10 ∧
    hostA.reconnectPeriodDeltaMs ≠ cfgA.hostReconnectPeriodDeltaMs ∧
    (hostA.ensureConnection [false, false, false] 0).2 = [0, 30000, 30000] ∧
    [reconnectWaitSeq 30000 10 0, reconnectWaitSeq 30000 10 1,
      reconnectWaitSeq 30000 10 2] = [0, 10, 30] := by
  decide

/-- Sample host with a live, never-used connection established at instant 0
(last use stamp 0) and an empty writer. -/
def hostFresh : Host :=
  { hostA with conn := { conn := some {}, lastConnUse := 0, w := some {} } }

/-- C3: the code slip behind the claim. The refresh period option (5, meant
as seconds) is compared against the elapsed time as 5 NANOSECONDS: after
only 1 second idle (1000000000 ns ≤ the claimed 5-second threshold) the
refresh fires, bumps old_connection_refresh, closes the socket — and leaves
the closed socket in place, since ensureConnection only dials when the
socket is nil, so the connection is not reopened even with a willing dial. -/
theorem c3_refresh_nanoseconds :
    (hostFresh.keepConnectionFresh [true] 1000000000).oldConnectionRefresh
        = hostFresh.oldConnectionRefresh + 1 ∧
    (hostFresh.keepConnectionFresh [true] 1000000000).conn.conn
        = some { sent := "", closed := true } ∧
    ((1000000000 : Int) - 0 ≤ 5 * 1000000000) := by
  decide

/-- Host after its first failed dial attempt: available false, one counted
state change. -/
def hostDown : Host := hostA.connect false 0 1

/-- C1 counterexample: after the first failed dial the flag is false with
state_changes = 1; a successful dial then raises the flag back to true —
an observed false→true edge — by a blind Store, and state_changes stays 1
instead of becoming 2 as the claim requires for edges in both directions. -/
theorem c1_counterexample :
    hostDown.available = false ∧
    hostDown.stateChanges = 1 ∧
    (hostDown.connect true 0 2).available = true ∧
    (hostDown.connect true 0 2).stateChanges = 1 ∧
    ¬ (hostDown.connect true 0 2).stateChanges = hostDown.stateChanges + 1 := by
  decide

/-- C1 amended: for both Connect and checkUpdateHostStatus, state_changes
increments exactly on the true→false edges of `available` (performed via
CAS(true, false)); transitions to true are blind stores and are never
counted. -/
theorem c1_state_changes_on_down_edge (h : Host) (dialOk : Bool) (now : Int)
    (attempt : Nat) :
    ((h.connect dialOk now attempt).stateChanges =
      h.stateChanges +
        (if h.available = true ∧ (h.connect dialOk now attempt).available = false
         then 1 else 0)) ∧
    ((h.checkUpdateHostStatus dialOk).stateChanges =
      h.stateChanges +
        (if h.available = true ∧ (h.checkUpdateHostStatus dialOk).available = false
         then 1 else 0)) := by
  cases hd : dialOk <;> cases hA : h.available <;>
    simp [Host.connect, Host.checkUpdateHostStatus, Host.casAvailTrueFalse, hA]
  all_goals rcases Nat.decEq attempt 1 with h1 | h1 <;> simp_all

/-- keepConnectionFresh changes nothing when the refresh is disabled or the
idle time does not exceed the (nanosecond) threshold. -/
theorem Host.keepConnectionFresh_eq_self (h : Host) (dials : List Bool) (now : Int)
    (hcond : h.tcpOutConnectionRefreshPeriodSec = 0 ∨
      ¬ ((h.tcpOutConnectionRefreshPeriodSec : Int) < now - h.conn.lastConnUse)) :
    h.keepConnectionFresh dials now = h := by
  unfold Host.keepConnectionFresh
  rcases hcond with h0 | hlt
  · simp [h0]
  · by_cases h0 : h.tcpOutConnectionRefreshPeriodSec = 0
    · simp [h0]
    · cases hc : h.conn.conn <;> simp [h0, hc, hlt]

/-- Sample host holding buffered bytes "ab" while its socket is nil (the
state the flusher claim is about after a write error dropped the socket). -/
def hostBuf : Host :=
  { hostA with conn := { conn := none, lastConnUse := 0, w := some { buf := "ab" } } }

/-- C4 counterexample: the flusher runs on a host whose writer buffers "ab"
with no socket; the dial succeeds and the flush oracle would succeed, yet
the freshly dialed connection has received nothing (sent = "") — because
ensureConnection replaced the writer with a fresh empty one, discarding the
buffered bytes instead of flushing exactly them to the connection. -/
theorem c4_counterexample :
    hostBuf.conn.w = some { buf := "ab" } ∧
    (hostBuf.tryToFlushIfNecessary [true] true 7).conn.conn
        = some { sent := "", closed := false } ∧
    (hostBuf.tryToFlushIfNecessary [true] true 7).conn.w = some { buf := "" } ∧
    ¬ (hostBuf.tryToFlushIfNecessary [true] true 7).conn.conn
        = some { sent := "ab", closed := false } := by
  decide

/-- C4 amended: with a live connection (and the refresh not firing), the
flusher flushes exactly the buffered bytes to that connection and empties
the writer; on flush error the connection and the writer are both dropped
(set to nil). When the connection is nil, the successful redial replaces
the writer with a fresh empty one: the buffered bytes are discarded, and
nothing is sent to the new connection. -/
theorem c4_flush_behavior :
    (∀ (h : Host) (dials : List Bool) (flushOk : Bool) (now : Int)
        (c : NetConn) (wr : Writer),
      h.conn.conn = some c → h.conn.w = some wr → wr.buf ≠ "" →
      (h.tcpOutConnectionRefreshPeriodSec = 0 ∨
        ¬ ((h.tcpOutConnectionRefreshPeriodSec : Int) < now - h.conn.lastConnUse)) →
      (flushOk = true →
        h.tryToFlushIfNecessary dials flushOk now =
          { h with conn := { conn := some { c with sent := c.sent ++ wr.buf },
                             lastConnUse := now,
                             w := some { buf := "" } } }) ∧
      (flushOk = false →
        (h.tryToFlushIfNecessary dials flushOk now).conn.conn = none ∧
        (h.tryToFlushIfNecessary dials flushOk now).conn.w = none)) ∧
    (∀ (h : Host) (rest : List Bool) (flushOk : Bool) (now : Int) (wr : Writer),
      h.conn.conn = none → h.conn.w = some wr → wr.buf ≠ "" →
      (h.tryToFlushIfNecessary (true :: rest) flushOk now).conn.conn
          = some { sent := "", closed := false } ∧
      (h.tryToFlushIfNecessary (true :: rest) flushOk now).conn.w
          = some { buf := "" } ∧
      (h.tryToFlushIfNecessary (true :: rest) flushOk now).conn.lastConnUse
          = now) := by
  constructor
  · intro h dials flushOk now c wr hcc hw hbuf hcond
    have hk : h.keepConnectionFresh dials now = h :=
      Host.keepConnectionFresh_eq_self h dials now hcond
    constructor <;> intro hf <;>
      simp [Host.tryToFlushIfNecessary, hw, hbuf, hcc, hk, hf]
  · intro h rest flushOk now wr hcc hw hbuf
    cases rest <;>
      simp [Host.tryToFlushIfNecessary, hw, hbuf, hcc, Host.ensureConnection,
            Host.ensureConnectionAux, Host.connect, Connection.new]

/-- Sample host with a live connection, last used at instant 0, whose writer
buffers "xy". -/
def hostLive : Host :=
  { hostA with conn := { conn := some {}, lastConnUse := 0, w := some { buf := "xy" } } }

/-- C4 witness: flushing the sample live host at instant 3 (idle 3 ns, below
the 5 ns threshold, so the refresh does not fire) sends exactly the
buffered "xy" and empties the writer. -/
theorem c4_flush_behavior_witness :
    hostLive.conn.conn = some { sent := "", closed := false } ∧
    hostLive.conn.w = some { buf := "xy" } ∧
    ("xy" : String) ≠ "" ∧
    ¬ ((hostLive.tcpOutConnectionRefreshPeriodSec : Int) < 3 - hostLive.conn.lastConnUse) ∧
    hostLive.tryToFlushIfNecessary [] true 3 =
      { hostLive with conn := { conn := some { sent := "" ++ "xy", closed := false },
                                lastConnUse := 3,
                                w := some { buf := "" } } } :=
  ⟨rfl, rfl, by decide, by decide,
   (c4_flush_behavior.1 hostLive [] true 3 { sent := "", closed := false }
      { buf := "xy" } rfl rfl (by decide) (Or.inr (by decide))).1 rfl⟩

/-- Connect touches the connection cell, the liveness flag and the
state-change counters only: the delivery counters and the histogram are
unchanged. -/
theorem Host.connect_preserves (h : Host) (d : Bool) (now : Int) (attempt : Nat) :
    (h.connect d now attempt).outRecs = h.outRecs ∧
    (h.connect d now attempt).outRecsTotal = h.outRecsTotal ∧
    (h.connect d now attempt).processingObserved = h.processingObserved := by
  unfold Host.connect Host.casAvailTrueFalse
  cases d <;> by_cases h1 : attempt = 1 <;> by_cases h2 : h.available <;>
    simp [h1, h2]

/-- The ensureConnection loop preserves the delivery counters and the
histogram. -/
theorem Host.ensureConnectionAux_preserves (dials : List Bool) (now : Int)
    (wait attempt : Nat) (sleeps : List Nat) (h : Host) :
    (Host.ensureConnectionAux dials now wait attempt sleeps h).1.outRecs = h.outRecs ∧
    (Host.ensureConnectionAux dials now wait attempt sleeps h).1.outRecsTotal
        = h.outRecsTotal ∧
    (Host.ensureConnectionAux dials now wait attempt sleeps h).1.processingObserved
        = h.processingObserved := by
  induction dials generalizing wait attempt sleeps h with
  | nil => simp [Host.ensureConnectionAux]
  | cons d rest ih =>
    simp only [Host.ensureConnectionAux]
    split
    · obtain ⟨p1, p2, p3⟩ := Host.connect_preserves h d now attempt
      obtain ⟨q1, q2, q3⟩ := ih (reconnectWaitStep h.maxReconnectPeriodMs
        h.reconnectPeriodDeltaMs wait) (attempt + 1) (sleeps ++ [wait])
        (h.connect d now attempt)
      exact ⟨q1.trans p1, q2.trans p2, q3.trans p3⟩
    · simp

/-- keepConnectionFresh preserves the delivery counters and the histogram. -/
theorem Host.keepConnectionFresh_preserves (h : Host) (dials : List Bool) (now : Int) :
    (h.keepConnectionFresh dials now).outRecs = h.outRecs ∧
    (h.keepConnectionFresh dials now).outRecsTotal = h.outRecsTotal ∧
    (h.keepConnectionFresh dials now).processingObserved = h.processingObserved := by
  unfold Host.keepConnectionFresh
  by_cases h0 : h.tcpOutConnectionRefreshPeriodSec = 0
  · simp [h0]
  · cases hc : h.conn.conn with
    | none => simp [h0, hc]
    | some c =>
      simp only [h0, hc, ne_eq, not_false_eq_true, if_true]
      split
      · exact Host.ensureConnectionAux_preserves ..
      · simp

/-- A failed write attempt reports failure, leaves the socket nil for the
retry, counts one socket close when a socket was there to close, and does
not touch the delivery counters or the histogram. -/
theorem Host.sendAttemptStep_fail (h : Host) (r : Rec) (a : SendAttempt)
    (hw : a.writeOk = false) :
    (h.sendAttemptStep r a).2 = false ∧
    (h.sendAttemptStep r a).1.conn.conn = none ∧
    (h.sendAttemptStep r a).1.outRecs = h.outRecs ∧
    (h.sendAttemptStep r a).1.outRecsTotal = h.outRecsTotal ∧
    (h.sendAttemptStep r a).1.processingObserved = h.processingObserved ∧
    (((h.ensureConnection a.dials a.now).1.keepConnectionFresh a.dials a.now).conn.conn
        ≠ none →
      (h.sendAttemptStep r a).1.socketCloses =
        ((h.ensureConnection a.dials a.now).1.keepConnectionFresh a.dials
          a.now).socketCloses + 1) := by
  obtain ⟨e1, e2, e3⟩ := Host.ensureConnectionAux_preserves a.dials a.now 0 1 []  h
  obtain ⟨k1, k2, k3⟩ := Host.keepConnectionFresh_preserves
    (h.ensureConnection a.dials a.now).1 a.dials a.now
  unfold Host.sendAttemptStep
  rw [hw]
  simp only [Bool.false_eq_true, if_false]
  split <;>
    simp_all [Host.ensureConnection]

/-- A successful write attempt reports success and performs exactly the
success bookkeeping: out_recs and its total increment once, the latency
`now - received` is observed into the histogram, and last-use is stamped. -/
theorem Host.sendAttemptStep_success (h : Host) (r : Rec) (a : SendAttempt)
    (hw : a.writeOk = true) :
    (h.sendAttemptStep r a).2 = true ∧
    (h.sendAttemptStep r a).1.outRecs = h.outRecs + 1 ∧
    (h.sendAttemptStep r a).1.outRecsTotal = h.outRecsTotal + 1 ∧
    (h.sendAttemptStep r a).1.processingObserved
        = h.processingObserved ++ [a.now - r.received] ∧
    (h.sendAttemptStep r a).1.conn.lastConnUse = a.now := by
  obtain ⟨e1, e2, e3⟩ := Host.ensureConnectionAux_preserves a.dials a.now 0 1 []  h
  obtain ⟨k1, k2, k3⟩ := Host.keepConnectionFresh_preserves
    (h.ensureConnection a.dials a.now).1 a.dials a.now
  unfold Host.sendAttemptStep
  rw [hw]
  simp only [if_true]
  split <;>
    simp_all [Host.ensureConnection]

/-- C5: the tryToSend retry loop. Every failed write reports failure with
the socket closed (when one was present) and the connection nil before the
loop re-ensures a connection and retries the same record; and across any
run of failures followed by the first successful write, tryToSend returns
with out_recs (and its total) incremented exactly once, the latency
`now - received_at` observed into the processing histogram, and last-use
stamped with the instant of the successful write. -/
theorem c5_tryToSend_retry_until_success (h : Host) (r : Rec)
    (pre : List SendAttempt) (suc : SendAttempt)
    (hpre : ∀ a ∈ pre, a.writeOk = false) (hsuc : suc.writeOk = true) :
    (∀ (h2 : Host) (a : SendAttempt), a.writeOk = false →
      (h2.sendAttemptStep r a).2 = false ∧
      (h2.sendAttemptStep r a).1.conn.conn = none ∧
      (((h2.ensureConnection a.dials a.now).1.keepConnectionFresh a.dials
          a.now).conn.conn ≠ none →
        (h2.sendAttemptStep r a).1.socketCloses =
          ((h2.ensureConnection a.dials a.now).1.keepConnectionFresh a.dials
            a.now).socketCloses + 1)) ∧
    ∃ h1, h.tryToSendLoop r (pre ++ [suc]) = some h1 ∧
      h1.outRecs = h.outRecs + 1 ∧
      h1.outRecsTotal = h.outRecsTotal + 1 ∧
      h1.processingObserved = h.processingObserved ++ [suc.now - r.received] ∧
      h1.conn.lastConnUse = suc.now := by
  refine ⟨fun h2 a ha => ?_, ?_⟩
  · obtain ⟨f1, f2, _, _, _, f6⟩ := Host.sendAttemptStep_fail h2 r a ha
    exact ⟨f1, f2, f6⟩
  · induction pre generalizing h with
    | nil =>
      obtain ⟨s1, s2, s3, s4, s5⟩ := Host.sendAttemptStep_success h r suc hsuc
      refine ⟨(h.sendAttemptStep r suc).1, ?_, s2, s3, s4, s5⟩
      simp [Host.tryToSendLoop, s1]
    | cons a rest ih =>
      have ha : a.writeOk = false := hpre a (List.mem_cons_self a rest)
      obtain ⟨f1, _, f3, f4, f5, _⟩ := Host.sendAttemptStep_fail h r a ha
      obtain ⟨h1, e1, e2, e3, e4, e5⟩ :=
        ih (h.sendAttemptStep r a).1 (fun b hb => hpre b (List.mem_cons_of_mem a hb))
      refine ⟨h1, ?_, ?_, ?_, ?_, e5⟩
      · simp [Host.tryToSendLoop, f1, e1]
      · rw [e2, f3]
      · rw [e3, f4]
      · rw [e4, f5]

/-- C5 witness: on the sample host, one failed write followed by a
successful one at instant 9 delivers the record with out_recs going 0 → 1
and the latency 9 - 2 observed. -/
theorem c5_tryToSend_retry_until_success_witness :
    (∀ a ∈ [SendAttempt.mk [true] 4 false], a.writeOk = false) ∧
    (SendAttempt.mk [true] 9 true).writeOk = true ∧
    ((∀ (h2 : Host) (a : SendAttempt), a.writeOk = false →
      (h2.sendAttemptStep recA a).2 = false ∧
      (h2.sendAttemptStep recA a).1.conn.conn = none ∧
      (((h2.ensureConnection a.dials a.now).1.keepConnectionFresh a.dials
          a.now).conn.conn ≠ none →
        (h2.sendAttemptStep recA a).1.socketCloses =
          ((h2.ensureConnection a.dials a.now).1.keepConnectionFresh a.dials
            a.now).socketCloses + 1)) ∧
    ∃ h1, hostA.tryToSendLoop recA
        ([SendAttempt.mk [true] 4 false] ++ [SendAttempt.mk [true] 9 true])
        = some h1 ∧
      h1.outRecs = hostA.outRecs + 1 ∧
      h1.outRecsTotal = hostA.outRecsTotal + 1 ∧
      h1.processingObserved = hostA.processingObserved ++ [(9 : Int) - recA.received] ∧
      h1.conn.lastConnUse = 9) :=
  ⟨by decide, rfl,
   c5_tryToSend_retry_until_success hostA recA [SendAttempt.mk [true] 4 false]
     (SendAttempt.mk [true] 9 true) (by decide) rfl⟩

/-- Taking all but one element is dropLast (the loop bound len-1 of
listenUDP). -/
theorem take_pred_eq_dropLast {α : Type} : ∀ l : List α, l.take (l.length - 1) = l.dropLast
  | [] => rfl
  | [_] => rfl
  | a :: b :: t => by
    have ih := take_pred_eq_dropLast (b :: t)
    simp only [List.length_cons, Nat.add_sub_cancel] at ih ⊢
    rw [List.take_succ_cons, ih]
    rfl

/-- splitLF always yields at least one fragment, as bytes.Split does. -/
theorem splitLF_ne_nil (d : List Char) : splitLF d ≠ [] := by
  cases d with
  | nil => simp [splitLF]
  | cons c rest =>
    simp only [splitLF]
    cases hr : splitLF rest <;> split <;> simp_all

/-- Joining the splitLF fragments with LF in between restores the input. -/
theorem interLF_splitLF : ∀ d : List Char, interLF (splitLF d) = d
  | [] => rfl
  | c :: rest => by
    have ih := interLF_splitLF rest
    by_cases hc : c = '\n'
    · subst hc
      simp only [splitLF, if_pos rfl]
      cases hr : splitLF rest with
      | nil => exact absurd hr (splitLF_ne_nil rest)
      | cons x xs =>
        rw [hr] at ih
        simpa [interLF] using ih
    · simp only [splitLF, if_neg hc]
      cases hr : splitLF rest with
      | nil => exact absurd hr (splitLF_ne_nil rest)
      | cons x xs =>
        rw [hr] at ih
        cases xs with
        | nil =>
          simp only [interLF] at ih ⊢
          rw [ih]
        | cons y ys =>
          simp only [interLF, List.cons_append] at ih ⊢
          rw [ih]

/-- Splitting a datagram that ends in LF yields the fragments of its body
followed by one final empty fragment. -/
theorem splitLF_append_lf : ∀ s : List Char, splitLF (s ++ ['\n']) = splitLF s ++ [[]]
  | [] => rfl
  | c :: s => by
    have ih := splitLF_append_lf s
    by_cases hc : c = '\n'
    · subst hc
      simp [splitLF, ih]
    · cases hs : splitLF s with
      | nil => exact absurd hs (splitLF_ne_nil s)
      | cons x xs =>
        simp only [List.cons_append, List.append_eq, splitLF, if_neg hc, ih, hs]

/-- joinLinesLF unfolds one line at a time. -/
theorem joinLinesLF_cons (x : List Char) (ls : List (List Char)) :
    joinLinesLF (x :: ls) = x ++ '\n' :: joinLinesLF ls := rfl

/-- On a nonempty fragment list, LF-terminating every fragment is the same
as joining with LF in between and appending one final LF. -/
theorem joinLinesLF_eq_interLF :
    ∀ (xs : List (List Char)) (x : List Char),
      joinLinesLF (x :: xs) = interLF (x :: xs) ++ ['\n']
  | [], x => by simp [joinLinesLF_cons, joinLinesLF, interLF]
  | y :: ys, x => by
    rw [joinLinesLF_cons, joinLinesLF_eq_interLF ys y]
    simp [interLF, List.append_assoc]

/-- A datagram with no LF splits into a single fragment: the datagram
itself. -/
theorem splitLF_no_lf : ∀ d : List Char, '\n' ∉ d → splitLF d = [d]
  | [], _ => rfl
  | c :: rest, h => by
    have hc : ¬ c = '\n' := fun he => h (he ▸ List.mem_cons_self c rest)
    have ih := splitLF_no_lf rest (fun hm => h (List.mem_cons_of_mem c hm))
    simp [splitLF, hc, ih]

/-- C6: listenUDP pushes exactly the fragments before the last one of the
LF-split of the datagram; a datagram without LF contributes nothing (its
whole content is the trailing fragment, discarded); and a datagram ending
in LF contributes all of its lines and nothing more: LF-terminating the
pushed lines reproduces the datagram exactly. -/
theorem c6_udp_datagram (d d0 : List Char) (q : MainQueue) (ms : Ms) :
    (listenUDPDatagram d q ms).1 = (splitLF d).dropLast ∧
    ('\n' ∉ d → (listenUDPDatagram d q ms).1 = []) ∧
    joinLinesLF ((listenUDPDatagram (d0 ++ ['\n']) q ms).1) = d0 ++ ['\n'] := by
  refine ⟨by simp [listenUDPDatagram, take_pred_eq_dropLast], fun hn => ?_, ?_⟩
  · simp [listenUDPDatagram, take_pred_eq_dropLast, splitLF_no_lf d hn]
  · simp only [listenUDPDatagram, take_pred_eq_dropLast, splitLF_append_lf]
    rw [List.dropLast_concat]
    cases hs : splitLF d0 with
    | nil => exact absurd hs (splitLF_ne_nil d0)
    | cons x xs =>
      rw [joinLinesLF_eq_interLF xs x, ← hs, interLF_splitLF]

/-- C6 witness: the datagram "ab\ncd\n" (ending in LF) pushes exactly the
two complete lines, and the datagram "abc" (no LF) pushes nothing. -/
theorem c6_udp_datagram_witness :
    ¬ '\n' ∈ ['a', 'b', 'c'] ∧
    (listenUDPDatagram ['a', 'b', 'c'] ⟨4, []⟩ ⟨0, 0⟩).1 = [] ∧
    joinLinesLF ((listenUDPDatagram (['a', 'b', '\n', 'c', 'd'] ++ ['\n'])
        ⟨4, []⟩ ⟨0, 0⟩).1) = ['a', 'b', '\n', 'c', 'd'] ++ ['\n'] :=
  ⟨by decide,
   (c6_udp_datagram ['a', 'b', 'c'] ['a', 'b', '\n', 'c', 'd'] ⟨4, []⟩ ⟨0, 0⟩).2.1
     (by decide),
   (c6_udp_datagram ['a', 'b', 'c'] ['a', 'b', '\n', 'c', 'd'] ⟨4, []⟩ ⟨0, 0⟩).2.2⟩

/-- A line one byte longer than the token-size limit of the scanner. -/
def overLine : List Char := List.replicate (maxScanTokenSize + 1) 'a'

/-- C9 counterexample: a TCP connection sends the line "ok", then an
over-length line, then the line "z". The over-length line makes the
scanner stop: only "ok" reaches the main queue, "z" is never read, and the
only counter that moved is in_recs (for "ok") — there is no counter bump
for the discarded over-length line, contradicting the claim that
subsequent lines continue to be read and a counter is bumped. -/
theorem c9_counterexample :
    (scanForRecordsTCP [['o', 'k'], overLine, ['z']] ⟨10, []⟩ ⟨0, 0⟩).1
        = [['o', 'k']] ∧
    ¬ ['z'] ∈ (scanForRecordsTCP [['o', 'k'], overLine, ['z']] ⟨10, []⟩ ⟨0, 0⟩).1 ∧
    (scanForRecordsTCP [['o', 'k'], overLine, ['z']] ⟨10, []⟩ ⟨0, 0⟩).2.2
        = { inRecs := 1, throttledRecs := 0 } := by
  have hlen : overLine.length = maxScanTokenSize + 1 := by
    simp [overLine]
  refine ⟨?_, ?_, ?_⟩ <;>
    simp [scanForRecordsTCP, scanTokens, hlen, maxScanTokenSize, sendToMainQ]

/-- C9 amended: on the TCP ingest path an over-length line — one of
maxScanTokenSize (65536) bytes or more, since the scanner buffer capped at
that limit must also hold the terminating newline — terminates the scan of
that connection: exactly the lines before it are forwarded to the main
queue (with the usual non-blocking push bookkeeping), while the over-length
line and every later line on the connection are not forwarded and bump no
counter. -/
theorem c9_overlength_stops_scan (pre post : List (List Char)) (bad : List Char)
    (q : MainQueue) (ms : Ms)
    (hpre : ∀ l ∈ pre, l.length < maxScanTokenSize)
    (hbad : maxScanTokenSize ≤ bad.length) :
    (scanForRecordsTCP (pre ++ bad :: post) q ms).1 = pre ∧
    (scanForRecordsTCP (pre ++ bad :: post) q ms).2 =
      pre.foldl (fun qm l => sendToMainQ l qm.1 qm.2) (q, ms) := by
  have hscan : scanTokens maxScanTokenSize (pre ++ bad :: post) = pre := by
    induction pre with
    | nil => simp [scanTokens, Nat.not_lt.mpr hbad]
    | cons l ls ih =>
      have hl : l.length < maxScanTokenSize := hpre l (List.mem_cons_self l ls)
      simp only [List.cons_append, List.append_eq, scanTokens, if_pos hl]
      rw [ih (fun m hm => hpre m (List.mem_cons_of_mem l hm))]
  exact ⟨by simp [scanForRecordsTCP, hscan], by simp [scanForRecordsTCP, hscan]⟩

/-- C9 witness: with one short line before the over-length line and one
line after it, exactly the first line is forwarded. -/
theorem c9_overlength_stops_scan_witness :
    (∀ l ∈ [['o', 'k']], l.length < maxScanTokenSize) ∧
    maxScanTokenSize ≤ overLine.length ∧
    (scanForRecordsTCP ([['o', 'k']] ++ overLine :: [['z']]) ⟨10, []⟩ ⟨0, 0⟩).1
        = [['o', 'k']] ∧
    (scanForRecordsTCP ([['o', 'k']] ++ overLine :: [['z']]) ⟨10, []⟩ ⟨0, 0⟩).2 =
      [['o', 'k']].foldl (fun qm l => sendToMainQ l qm.1 qm.2) (⟨10, []⟩, ⟨0, 0⟩) :=
  ⟨by decide, by simp [overLine],
   (c9_overlength_stops_scan [['o', 'k']] [['z']] overLine ⟨10, []⟩ ⟨0, 0⟩
     (by decide) (by simp [overLine])).1,
   (c9_overlength_stops_scan [['o', 'k']] [['z']] overLine ⟨10, []⟩ ⟨0, 0⟩
     (by decide) (by simp [overLine])).2⟩

end Nanotube
